import Mathlib

/-! Verification of `backend/client/box.go`.

A shallow embedding of the two functions of `backend/client/box.go`:

* `getOUt`  (lines 16-93): builds one outbound description from a peer;
* `Client`  (lines 94-322): assembles the whole option tree and calls the
  engine constructor `box.New`.

Conventions of the embedding.

* Go struct types of the `option` package are Lean structures that carry the
  fields the source file mentions; every field has the Go zero value as its
  default, so a struct literal of the source translates field by field.
* A Go pointer is an `Option`: `nil` is `none`.  Dereferencing `nil` panics;
  a panic is the result `none` of the embedded function.
* `uint16`/`uint32` values are natural numbers; the file does no arithmetic
  on them.
* The outside world is passed in explicitly: the sequence of strings returned
  by successive calls of `uuid.New().String()`, the result of
  `os.UserHomeDir()`, the constant `os.PathSeparator`, and the constructor
  `box.New`.
-/

namespace Gpp

/-! ## Data model -/

/-- The fields of `config.Peer` that `box.go` reads. -/
structure Peer where
  Name : String := ""
  Protocol : String := ""
  Addr : String := ""
  Port : Nat := 0
  UUID : String := ""
deriving DecidableEq, Repr

/-- `option.ServerOptions`. -/
structure ServerOptions where
  Server : String := ""
  ServerPort : Nat := 0
deriving DecidableEq, Repr

/-- `option.UDPOverTCPOptions`. -/
structure UDPOverTCPOptions where
  Enabled : Bool := false
  Version : Nat := 0
deriving DecidableEq, Repr

/-- `option.OutboundTLSOptions`. -/
structure OutboundTLSOptions where
  Enabled : Bool := false
  ServerName : String := ""
  Insecure : Bool := false
  ALPN : List String := []
deriving DecidableEq, Repr

/-- `option.ShadowsocksOutboundOptions`. -/
structure ShadowsocksOutboundOptions where
  ServerOptions : ServerOptions := {}
  Method : String := ""
  Password : String := ""
deriving DecidableEq, Repr

/-- `option.SocksOutboundOptions`. -/
structure SocksOutboundOptions where
  ServerOptions : ServerOptions := {}
  Username : String := ""
  Password : String := ""
  UDPOverTCP : Option UDPOverTCPOptions := none
deriving DecidableEq, Repr

/-- `option.Hysteria2OutboundOptions`; `TLS` is the pointer field of the
embedded `OutboundTLSOptionsContainer`. -/
structure Hysteria2OutboundOptions where
  ServerOptions : ServerOptions := {}
  Password : String := ""
  TLS : Option OutboundTLSOptions := none
  BrutalDebug : Bool := false
deriving DecidableEq, Repr

/-- `option.V2RayWebsocketOptions`. -/
structure V2RayWebsocketOptions where
  Path : String := ""
  MaxEarlyData : Nat := 0
  EarlyDataHeaderName : String := ""
deriving DecidableEq, Repr

/-- `option.V2RayTransportOptions`. -/
structure V2RayTransportOptions where
  Type_ : String := ""
  WebsocketOptions : V2RayWebsocketOptions := {}
deriving DecidableEq, Repr

/-- `option.VLESSOutboundOptions`. -/
structure VLESSOutboundOptions where
  ServerOptions : ServerOptions := {}
  UUID : String := ""
  Transport : Option V2RayTransportOptions := none
deriving DecidableEq, Repr

/-- `option.DirectOutboundOptions`; the source never sets a field of it. -/
structure DirectOutboundOptions where
  OverrideAddress : String := ""
  OverridePort : Nat := 0
deriving DecidableEq, Repr

/-- `option.Outbound`: the type, the tag, and one option block per protocol
that `getOUt` knows (`Type_` is the Go field `Type`).  The blocks of the
protocols the source never names stay at their zero value in every literal of
the file and are left out. -/
structure Outbound where
  Type_ : String := ""
  Tag : String := ""
  DirectOptions : DirectOutboundOptions := {}
  SocksOptions : SocksOutboundOptions := {}
  ShadowsocksOptions : ShadowsocksOutboundOptions := {}
  VLESSOptions : VLESSOutboundOptions := {}
  Hysteria2Options : Hysteria2OutboundOptions := {}
deriving DecidableEq, Repr

/-! ## `getOUt` -/

/-- `getOUt` (box.go 16-93).  `uuidNew k` is the string returned by the
`k`-th call of `uuid.New().String()`; the argument `k` counts the calls made
so far and the new count is returned with the outbound.  A nil `peer` panics
at the `switch` (line 18): result `none`. -/
def getOUt (uuidNew : Nat → String) (peer : Option Peer) (k : Nat) :
    Option (Outbound × Nat) :=
  match peer with
  | none => none
  | some peer =>
    let out : Outbound :=
      if peer.Protocol = "shadowsocks" then
        { Type_ := "shadowsocks"
          ShadowsocksOptions :=
            { ServerOptions := { Server := peer.Addr, ServerPort := peer.Port }
              Method := "xchacha20-ietf-poly1305"
              Password := peer.UUID } }
      else if peer.Protocol = "socks" then
        { Type_ := "socks"
          SocksOptions :=
            { ServerOptions := { Server := peer.Addr, ServerPort := peer.Port }
              Username := "gpp"
              Password := peer.UUID
              UDPOverTCP := some { Enabled := true, Version := 2 } } }
      else if peer.Protocol = "hysteria2" then
        { Type_ := "hysteria2"
          Hysteria2Options :=
            { ServerOptions := { Server := peer.Addr, ServerPort := peer.Port }
              Password := peer.UUID
              TLS := some
                { Enabled := true
                  ServerName := "gpp"
                  Insecure := true
                  ALPN := ["h3"] }
              BrutalDebug := false } }
      else if peer.Protocol = "direct" then
        { Type_ := "direct" }
      else
        { Type_ := "vless"
          VLESSOptions :=
            { ServerOptions := { Server := peer.Addr, ServerPort := peer.Port }
              UUID := peer.UUID
              Transport := some
                { Type_ := "ws"
                  WebsocketOptions :=
                    { Path := "/" ++ peer.UUID
                      MaxEarlyData := 2048
                      EarlyDataHeaderName := "Sec-WebSocket-Protocol" } } } }
    some ({ out with Tag := uuidNew k }, k + 1)

/-- The outbound with its generated tag blanked: "the result apart from the
Tag". -/
def Outbound.eraseTag (o : Outbound) : Outbound := { o with Tag := "" }

/-! ## Data model of the engine options -/

/-- `option.LogOptions`. -/
structure LogOptions where
  Disabled : Bool := false
  Level : String := ""
  Output : String := ""
  Timestamp : Bool := false
  DisableColor : Bool := false
deriving DecidableEq, Repr

/-- `dns.DomainStrategy` (sing-dns): the five resolution strategies, zero
value first. -/
inductive DomainStrategy where
  | AsIS | PreferIPv4 | PreferIPv6 | UseIPv4 | UseIPv6
deriving DecidableEq, Repr

/-- `option.DNSServerOptions`. -/
structure DNSServerOptions where
  Tag : String := ""
  Address : String := ""
  Detour : String := ""
  Strategy : DomainStrategy := .AsIS
deriving DecidableEq, Repr

/-- `option.DefaultDNSRule`. -/
structure DefaultDNSRule where
  Domain : List String := []
  Geosite : List String := []
  Server : String := ""
deriving DecidableEq, Repr

/-- `option.DNSRule`. -/
structure DNSRule where
  Type_ : String := ""
  DefaultOptions : DefaultDNSRule := {}
deriving DecidableEq, Repr

/-- `option.DNSClientOptions`. -/
structure DNSClientOptions where
  DisableCache : Bool := false
deriving DecidableEq, Repr

/-- `option.DNSOptions`. -/
structure DNSOptions where
  Servers : List DNSServerOptions := []
  Rules : List DNSRule := []
  DNSClientOptions : DNSClientOptions := {}
deriving DecidableEq, Repr

/-- An IPv4 address, as parsed by `netip.MustParseAddr`. -/
structure IPv4Addr where
  a : Nat
  b : Nat
  c : Nat
  d : Nat
deriving DecidableEq, Repr

/-- An IPv4 address with a mask length, as parsed by `netip.MustParsePrefix`. -/
structure IPv4Net where
  addr : IPv4Addr
  bits : Nat
deriving DecidableEq, Repr

/-- `option.InboundOptions`. -/
structure InboundOptions where
  SniffEnabled : Bool := false
deriving DecidableEq, Repr

/-- `option.TunInboundOptions`; `UDPTimeout` is a `time.Duration` in
nanoseconds. -/
structure TunInboundOptions where
  InterfaceName : String := ""
  MTU : Nat := 0
  Inet4Address : List IPv4Net := []
  AutoRoute : Bool := false
  StrictRoute : Bool := false
  EndpointIndependentNat : Bool := false
  UDPTimeout : Int := 0
  Stack : String := ""
  InboundOptions : InboundOptions := {}
deriving DecidableEq, Repr

/-- `option.ListenOptions`. -/
structure ListenOptions where
  Listen : Option IPv4Addr := none
  ListenPort : Nat := 0
  InboundOptions : InboundOptions := {}
deriving DecidableEq, Repr

/-- `option.SocksInboundOptions`. -/
structure SocksInboundOptions where
  ListenOptions : ListenOptions := {}
deriving DecidableEq, Repr

/-- `option.Inbound`. -/
structure Inbound where
  Type_ : String := ""
  Tag : String := ""
  TunOptions : TunInboundOptions := {}
  SocksOptions : SocksInboundOptions := {}
deriving DecidableEq, Repr

/-- `option.GeoIPOptions`. -/
structure GeoIPOptions where
  Path : String := ""
  DownloadURL : String := ""
  DownloadDetour : String := ""
deriving DecidableEq, Repr

/-- `option.GeositeOptions`. -/
structure GeositeOptions where
  Path : String := ""
  DownloadURL : String := ""
  DownloadDetour : String := ""
deriving DecidableEq, Repr

/-- `option.DefaultRule`: the matchers the source uses and the target
outbound. -/
structure DefaultRule where
  Inbound : List String := []
  Protocol : List String := []
  Network : List String := []
  Domain : List String := []
  DomainSuffix : List String := []
  Geosite : List String := []
  GeoIP : List String := []
  SourceIPCIDR : List String := []
  Port : List Nat := []
  Outbound : String := ""
deriving DecidableEq, Repr

/-- `option.Rule`. -/
structure Rule where
  Type_ : String := ""
  DefaultOptions : DefaultRule := {}
deriving DecidableEq, Repr

/-- `option.RouteOptions`. -/
structure RouteOptions where
  GeoIP : Option GeoIPOptions := none
  Geosite : Option GeositeOptions := none
  Rules : List Rule := []
  AutoDetectInterface : Bool := false
deriving DecidableEq, Repr

/-- `option.Options`. -/
structure Options where
  Log : Option LogOptions := none
  DNS : Option DNSOptions := none
  Inbounds : List Inbound := []
  Outbounds : List Outbound := []
  Route : Option RouteOptions := none
deriving DecidableEq, Repr

/-- A `context.Context`; the source only uses `context.Background()`. -/
inductive Context where
  | Background
deriving DecidableEq, Repr

/-- `box.Options`: the context and the embedded `option.Options`. -/
structure BoxOptions where
  Context : Context := .Background
  Options : Options := {}
deriving DecidableEq, Repr

/-! ## `Client` -/

/-- The value of the local variable `options` of `Client` when control reaches
the call of `box.New` (box.go 95-315).  `home` is the string returned by
`os.UserHomeDir()` (its error is discarded by the source), `PathSeparator` is
`os.PathSeparator`, and `uuidNew` is as for `getOUt`.  The result is `none`
when the function panics before that point: `getOUt(gamePeer)` dereferences a
nil `gamePeer`. -/
def Client.options (uuidNew : Nat → String) (home : String) (PathSeparator : Char)
    (gamePeer httpPeer : Option Peer) : Option BoxOptions := do
  -- lines 96-239: the composite literal; `getOUt(gamePeer)` is evaluated in it
  let (gameOut, k) ← getOUt uuidNew gamePeer 0
  let options : BoxOptions :=
    { Context := .Background
      Options :=
        { Log := some
            { Disabled := false
              Level := "info"
              Output := "run.log"
              Timestamp := true
              DisableColor := true }
          DNS := some
            { Servers :=
                [ { Tag := "proxyDns", Address := "8.8.8.8", Strategy := .UseIPv4 },
                  { Tag := "localDns", Address := "223.5.5.5", Detour := "direct",
                    Strategy := .UseIPv4 },
                  { Tag := "block", Address := "rcode://success", Strategy := .UseIPv4 } ]
              Rules :=
                [ { Type_ := "default"
                    DefaultOptions :=
                      { Server := "localDns"
                        Domain := ["ghproxy.com", "cdn.jsdelivr.net",
                          "testingcf.jsdelivr.net"] } },
                  { Type_ := "default"
                    DefaultOptions := { Server := "localDns", Geosite := ["cn"] } },
                  { Type_ := "default"
                    DefaultOptions :=
                      { Server := "proxyDns", Geosite := ["geolocation-!cn"] } } ]
              DNSClientOptions := { DisableCache := true } }
          Inbounds :=
            [ { Type_ := "tun"
                Tag := "tun-in"
                TunOptions :=
                  { InterfaceName := "utun225"
                    MTU := 9000
                    Inet4Address := [⟨⟨172, 225, 0, 1⟩, 30⟩]
                    AutoRoute := true
                    StrictRoute := true
                    EndpointIndependentNat := true
                    UDPTimeout := 1000000000 * 300
                    Stack := "system"
                    InboundOptions := { SniffEnabled := true } } },
              { Type_ := "socks"
                Tag := "socks-in"
                SocksOptions :=
                  { ListenOptions :=
                      { Listen := some ⟨0, 0, 0, 0⟩
                        ListenPort := 5123
                        InboundOptions := { SniffEnabled := true } } } } ]
          Route := some
            { AutoDetectInterface := true
              GeoIP := some
                { Path := home ++ String.singleton PathSeparator ++ ".gpp" ++
                    String.singleton PathSeparator ++ "geoip.db"
                  DownloadURL := "https://mirror.ghproxy.com/https://github.com/SagerNet/sing-geoip/releases/latest/download/geoip.db"
                  DownloadDetour := "direct" }
              Geosite := some
                { Path := home ++ String.singleton PathSeparator ++ ".gpp" ++
                    String.singleton PathSeparator ++ "geosite.db"
                  DownloadURL := "https://mirror.ghproxy.com/https://github.com/SagerNet/sing-geosite/releases/latest/download/geosite.db"
                  DownloadDetour := "direct" }
              Rules :=
                [ { Type_ := "default"
                    DefaultOptions := { Protocol := ["dns"], Outbound := "dns_out" } },
                  { Type_ := "default"
                    DefaultOptions := { Inbound := ["dns_in"], Outbound := "dns_out" } } ] }
          Outbounds :=
            [ gameOut,
              { Type_ := "block", Tag := "block" },
              { Type_ := "direct", Tag := "direct" },
              { Type_ := "dns", Tag := "dns_out" } ] } }
  -- lines 241-310: `options.Options.Route.Rules = append(...)`
  let route ← options.Options.Route
  let route : RouteOptions :=
    { route with
      Rules := route.Rules ++
        [ { Type_ := "default"
            DefaultOptions :=
              { Network := ["udp"], Port := [443], Outbound := "block" } },
          { Type_ := "default"
            DefaultOptions := { Geosite := ["cn"], Outbound := "direct" } },
          { Type_ := "default"
            DefaultOptions := { GeoIP := ["cn", "private"], Outbound := "direct" } },
          { Type_ := "default"
            DefaultOptions :=
              { DomainSuffix := ["vivox.com", "cm.steampowered.com", "steamchina.com",
                  "steamcontent.com", "steamserver.net", "steamusercontent.com"]
                Outbound := "direct" } },
          { Type_ := "default"
            DefaultOptions :=
              { SourceIPCIDR := ["63.251.140.0/24", "69.25.124.0/23", "70.42.8.0/24",
                  "70.42.198.0/23", "74.201.102.0/23", "74.201.106.0/23",
                  "74.201.105.108/30", "85.236.96.0/21", "188.42.95.0/24",
                  "188.42.147.0/24", "216.52.53.0/24"]
                Outbound := "direct" } },
          { Type_ := "default"
            DefaultOptions :=
              { Domain := ["csgo.wmsj.cn", "dl.steam.clngaa.com", "dl.steam.ksyna.com",
                  "dota2.wmsj.cn", "st.dl.bscstorage.net", "st.dl.eccdnx.com",
                  "st.dl.pinyuncloud.com", "steampipe.steamcontent.tnkjmec.com",
                  "steampowered.com.8686c.com", "steamstatic.com.8686c.com",
                  "wmsjsteam.com", "xz.pphimalayanrt.com"]
                Outbound := "direct" } } ] }
  let options : BoxOptions :=
    { options with Options := { options.Options with Route := some route } }
  -- lines 311-315: `if httpPeer != nil && httpPeer.Name != gamePeer.Name`
  let gamePeer ← gamePeer
  match httpPeer with
  | none => some options
  | some hp =>
    if hp.Name ≠ gamePeer.Name then do
      let (out, _) ← getOUt uuidNew httpPeer k
      let route ← options.Options.Route
      some
        { options with
          Options :=
            { options.Options with
              Outbounds := options.Options.Outbounds ++ [out]
              Route := some
                { route with
                  Rules := route.Rules ++
                    [ { Type_ := "default"
                        DefaultOptions :=
                          { Protocol := ["http", "quic", "tls"]
                            Outbound := out.Tag } } ] } } }
    else
      some options

/-- What a run of `Client` does: the arguments of its calls of the engine
constructor `box.New`, in call order, and the pair `(instance, error)` it
returns. -/
structure ClientRun (B E : Type) where
  newCalls : List BoxOptions
  inst : Option B
  err : Option E

/-- `Client` (box.go 94-322).  `boxNew` is the engine constructor `box.New`,
which returns a pair of a possibly nil instance and a possibly nil error.  The
result is `none` when `Client` panics (nil `gamePeer`). -/
def Client {B E : Type} (uuidNew : Nat → String) (home : String) (PathSeparator : Char)
    (boxNew : BoxOptions → Option B × Option E)
    (gamePeer httpPeer : Option Peer) : Option (ClientRun B E) := do
  let options ← Client.options uuidNew home PathSeparator gamePeer httpPeer
  let (inst, err) := boxNew options
  match err with
  | some e => some { newCalls := [options], inst := none, err := some e }
  | none => some { newCalls := [options], inst := inst, err := none }

/-- The options `Client` builds for the zero peer as game peer, no http peer,
an empty home directory and empty generated tags; used as the reference value
of the parts that do not depend on the inputs. -/
def Client.baseOptions : Options :=
  (Client.options (fun _ => "") "" '/' (some {}) none).elim {} (fun o => o.Options)

/-- The route rules of `Client.baseOptions`. -/
def Client.baseRules : List Rule :=
  Client.baseOptions.Route.elim [] (fun r => r.Rules)

/-! ## Concrete inputs -/

/-- Two generated tags in the form `uuid.UUID.String()` prints. -/
def exampleUuid (k : Nat) : String :=
  if k = 0 then "7c9e6679-7425-40de-944b-e07fc1f90ae7"
  else "0f8fad5b-d9cb-469f-a165-70867728950e"

/-- A game peer. -/
def exampleGame : Peer :=
  { Name := "game", Protocol := "vless", Addr := "198.51.100.7", Port := 443,
    UUID := "b0a1c8de-5a0c-4f0e-9d57-0c1d5e3a7f21" }

/-- An http peer with another name. -/
def exampleHttp : Peer :=
  { Name := "http", Protocol := "socks", Addr := "203.0.113.9", Port := 1080,
    UUID := "5d5f3a1e-8f0b-4c55-b1a7-2f6c1e0d9a43" }

/-! ## Theorems about `getOUt` -/

/-- C1: for every (non-nil) peer `getOUt` returns an outbound, and its type is
the peer's protocol when that is exactly one of "shadowsocks", "socks",
"hysteria2", "direct", and "vless" for every other protocol string. -/
theorem getOUt_type (uuidNew : Nat → String) (peer : Peer) (k : Nat) :
    ∃ out k', getOUt uuidNew (some peer) k = some (out, k') ∧
      out.Type_ =
        (if peer.Protocol ∈ ["shadowsocks", "socks", "hysteria2", "direct"]
         then peer.Protocol else "vless") := by
  refine ⟨_, _, rfl, ?_⟩
  simp only [List.mem_cons, List.mem_singleton, List.not_mem_nil, or_false]
  by_cases h1 : peer.Protocol = "shadowsocks"
  · simp [h1]
  by_cases h2 : peer.Protocol = "socks"
  · simp [h2]
  by_cases h3 : peer.Protocol = "hysteria2"
  · simp [h3]
  by_cases h4 : peer.Protocol = "direct"
  · simp [h4]
  simp [h1, h2, h3, h4]

/-- C2: for every (non-nil) peer the outbound of `getOUt` is either of type
"direct" (exactly when the peer's protocol is "direct") or of one of the four
proxy types, and then the option block of that type has `Server = peer.Addr`,
`ServerPort = peer.Port` and carries `peer.UUID` as credential: as `Password`
for shadowsocks, socks and hysteria2, as `UUID` for vless, whose transport is
present with websocket path "/" followed by `peer.UUID`. -/
theorem getOUt_carries_peer (uuidNew : Nat → String) (peer : Peer) (k : Nat) :
    ∃ out k', getOUt uuidNew (some peer) k = some (out, k') ∧
      ((out.Type_ = "direct" ∧ peer.Protocol = "direct") ∨
       (peer.Protocol ≠ "direct" ∧
        ((out.Type_ = "shadowsocks" ∧
            out.ShadowsocksOptions.ServerOptions.Server = peer.Addr ∧
            out.ShadowsocksOptions.ServerOptions.ServerPort = peer.Port ∧
            out.ShadowsocksOptions.Password = peer.UUID) ∨
         (out.Type_ = "socks" ∧
            out.SocksOptions.ServerOptions.Server = peer.Addr ∧
            out.SocksOptions.ServerOptions.ServerPort = peer.Port ∧
            out.SocksOptions.Password = peer.UUID) ∨
         (out.Type_ = "hysteria2" ∧
            out.Hysteria2Options.ServerOptions.Server = peer.Addr ∧
            out.Hysteria2Options.ServerOptions.ServerPort = peer.Port ∧
            out.Hysteria2Options.Password = peer.UUID) ∨
         (out.Type_ = "vless" ∧
            out.VLESSOptions.ServerOptions.Server = peer.Addr ∧
            out.VLESSOptions.ServerOptions.ServerPort = peer.Port ∧
            out.VLESSOptions.UUID = peer.UUID ∧
            ∃ t, out.VLESSOptions.Transport = some t ∧
              t.WebsocketOptions.Path = "/" ++ peer.UUID)))) := by
  refine ⟨_, _, rfl, ?_⟩
  by_cases h1 : peer.Protocol = "shadowsocks"
  · simp [h1]
  by_cases h2 : peer.Protocol = "socks"
  · simp [h2]
  by_cases h3 : peer.Protocol = "hysteria2"
  · simp [h3]
  by_cases h4 : peer.Protocol = "direct"
  · simp [h4]
  simp [h1, h2, h3, h4]

/-- C10: for every pair of (non-nil) peers `p`, `q`, and whatever tags are
generated, (a) the outbound built from `p` is, apart from its tag, the zero
outbound with the type and the single option block of the selected type set
(for "direct": no block at all), so every other protocol's block is at its
zero value; (b) if `p` and `q` agree on Protocol, Addr, Port and UUID, their
outbounds are equal apart from the tag, whatever their Name; (c) if the
protocol of `p` is "direct", the outbound apart from the tag is the constant
outbound that has only the type "direct" set. -/
theorem getOUt_only_selected_block (uuidNew₁ uuidNew₂ : Nat → String)
    (p q : Peer) (k₁ k₂ : Nat) :
    ∃ o₁ o₂ n₁ n₂,
      getOUt uuidNew₁ (some p) k₁ = some (o₁, n₁) ∧
      getOUt uuidNew₂ (some q) k₂ = some (o₂, n₂) ∧
      (o₁.eraseTag =
          { Type_ := "shadowsocks", ShadowsocksOptions := o₁.ShadowsocksOptions } ∨
       o₁.eraseTag = { Type_ := "socks", SocksOptions := o₁.SocksOptions } ∨
       o₁.eraseTag =
          { Type_ := "hysteria2", Hysteria2Options := o₁.Hysteria2Options } ∨
       o₁.eraseTag = { Type_ := "direct" } ∨
       o₁.eraseTag = { Type_ := "vless", VLESSOptions := o₁.VLESSOptions }) ∧
      (p.Protocol = q.Protocol ∧ p.Addr = q.Addr ∧ p.Port = q.Port ∧
          p.UUID = q.UUID → o₁.eraseTag = o₂.eraseTag) ∧
      (p.Protocol = "direct" → o₁.eraseTag = { Type_ := "direct" }) := by
  refine ⟨_, _, _, _, rfl, rfl, ?_, ?_, ?_⟩
  · by_cases h1 : p.Protocol = "shadowsocks"
    · simp [h1, Outbound.eraseTag]
    by_cases h2 : p.Protocol = "socks"
    · simp [h2, Outbound.eraseTag]
    by_cases h3 : p.Protocol = "hysteria2"
    · simp [h3, Outbound.eraseTag]
    by_cases h4 : p.Protocol = "direct"
    · simp [h4, Outbound.eraseTag]
    simp [h1, h2, h3, h4, Outbound.eraseTag]
  · rintro ⟨hP, hA, hPo, hU⟩
    simp only [Outbound.eraseTag, hP, hA, hPo, hU]
  · intro h
    simp [h, Outbound.eraseTag]

/-- Witness for C10: two peers with different names and equal Protocol, Addr,
Port and UUID, and a peer of protocol "direct". -/
theorem getOUt_only_selected_block_witness :
    (∃ o₁ o₂ n₁ n₂,
      getOUt (fun _ => "a") (some ⟨"game", "socks", "h", 1, "u"⟩) 0 = some (o₁, n₁) ∧
      getOUt (fun _ => "b") (some ⟨"http", "socks", "h", 1, "u"⟩) 1 = some (o₂, n₂) ∧
      o₁.eraseTag = o₂.eraseTag) ∧
    (∃ o n, getOUt (fun _ => "a") (some ⟨"game", "direct", "h", 1, "u"⟩) 0 = some (o, n) ∧
      o.eraseTag = { Type_ := "direct" }) := by
  constructor
  · obtain ⟨o₁, o₂, n₁, n₂, h₁, h₂, -, h, -⟩ :=
      getOUt_only_selected_block (fun _ => "a") (fun _ => "b")
        ⟨"game", "socks", "h", 1, "u"⟩ ⟨"http", "socks", "h", 1, "u"⟩ 0 1
    exact ⟨o₁, o₂, n₁, n₂, h₁, h₂, h ⟨rfl, rfl, rfl, rfl⟩⟩
  · obtain ⟨o, -, n, -, h₁, -, -, -, h⟩ :=
      getOUt_only_selected_block (fun _ => "a") (fun _ => "b")
        ⟨"game", "direct", "h", 1, "u"⟩ ⟨"http", "socks", "h", 1, "u"⟩ 0 1
    exact ⟨o, n, h₁, h rfl⟩

/-! ## Theorems about `Client` -/

/-- On a non-nil peer `getOUt` returns, consumes one generated string and uses
it as the tag. -/
theorem getOUt_some (uuidNew : Nat → String) (peer : Peer) (k : Nat) :
    ∃ out, getOUt uuidNew (some peer) k = some (out, k + 1) ∧ out.Tag = uuidNew k :=
  ⟨_, rfl, rfl⟩

/-- An http peer with the game peer's Name changes nothing (line 311). -/
theorem Client.options_same_name (uuidNew : Nat → String) (home : String) (sep : Char)
    (g h : Peer) (hn : h.Name = g.Name) :
    Client.options uuidNew home sep (some g) (some h) =
      Client.options uuidNew home sep (some g) none := by
  simp [Client.options, hn]

/-- An http peer with another Name appends its outbound and one rule to the
options built without it (lines 311-315). -/
theorem Client.options_other_name (uuidNew : Nat → String) (home : String) (sep : Char)
    (g h : Peer) (hn : h.Name ≠ g.Name) :
    ∃ o₀ r₀ out,
      Client.options uuidNew home sep (some g) none = some o₀ ∧
      o₀.Options.Route = some r₀ ∧
      getOUt uuidNew (some h) 1 = some (out, 2) ∧
      out.Tag = uuidNew 1 ∧
      Client.options uuidNew home sep (some g) (some h) = some
        { o₀ with
          Options :=
            { o₀.Options with
              Outbounds := o₀.Options.Outbounds ++ [out]
              Route := some
                { r₀ with
                  Rules := r₀.Rules ++
                    [ { Type_ := "default"
                        DefaultOptions :=
                          { Protocol := ["http", "quic", "tls"]
                            Outbound := out.Tag } } ] } } } := by
  refine ⟨_, _, _, rfl, rfl, rfl, rfl, ?_⟩
  simp [Client.options, hn]
  rfl

/-- The options built without an http peer: they exist for every non-nil game
peer, and all of their parts except the first outbound and the two database
paths are those of `Client.baseOptions`. -/
theorem Client.options_no_http (uuidNew : Nat → String) (home : String) (sep : Char)
    (g : Peer) :
    ∃ o₀ r₀ gameOut geoip geosite,
      Client.options uuidNew home sep (some g) none = some o₀ ∧
      o₀.Options.Route = some r₀ ∧
      getOUt uuidNew (some g) 0 = some (gameOut, 1) ∧
      o₀.Options.Outbounds =
        [gameOut, { Type_ := "block", Tag := "block" },
          { Type_ := "direct", Tag := "direct" }, { Type_ := "dns", Tag := "dns_out" }] ∧
      r₀.Rules = Client.baseRules ∧
      r₀.GeoIP = some geoip ∧ geoip.DownloadDetour = "direct" ∧
      r₀.Geosite = some geosite ∧ geosite.DownloadDetour = "direct" ∧
      o₀.Options.Log = Client.baseOptions.Log ∧
      o₀.Options.DNS = Client.baseOptions.DNS ∧
      o₀.Options.Inbounds = Client.baseOptions.Inbounds :=
  ⟨_, _, _, _, _, rfl, rfl, rfl, rfl, rfl, rfl, rfl, rfl, rfl, rfl, rfl, rfl⟩

/-- With a non-nil game peer the options are always built. -/
theorem Client.options_some (uuidNew : Nat → String) (home : String) (sep : Char)
    (g : Peer) (hp : Option Peer) :
    ∃ o, Client.options uuidNew home sep (some g) hp = some o := by
  cases hp with
  | none => exact ⟨_, rfl⟩
  | some h =>
    by_cases hn : h.Name = g.Name
    · rw [Client.options_same_name uuidNew home sep g h hn]
      exact ⟨_, rfl⟩
    · obtain ⟨_, _, _, -, -, -, -, hh⟩ := Client.options_other_name uuidNew home sep g h hn
      exact ⟨_, hh⟩

/-- With a nil game peer `Client` panics before it reaches `box.New`. -/
theorem Client.nil_gamePeer {B E : Type} (uuidNew : Nat → String) (home : String)
    (sep : Char) (boxNew : BoxOptions → Option B × Option E) (hp : Option Peer) :
    Client.options uuidNew home sep none hp = none ∧
    Client uuidNew home sep boxNew none hp = none :=
  ⟨rfl, rfl⟩

/-- C3: for every (non-nil) game peer and every http peer (possibly nil) the
options reach the engine, and their Outbounds list is the outbound built by
`getOUt` from the game peer followed by the outbounds block/"block",
direct/"direct" and dns/"dns_out"; these four are the whole list when the http
peer is nil or has the game peer's Name, and otherwise the list has a fifth and
last entry, the outbound built by `getOUt` from the http peer. -/
theorem Client_outbounds (uuidNew : Nat → String) (home : String) (sep : Char)
    (g : Peer) (hp : Option Peer) :
    ∃ o gameOut k,
      getOUt uuidNew (some g) 0 = some (gameOut, k) ∧
      Client.options uuidNew home sep (some g) hp = some o ∧
      (((hp = none ∨ ∃ h, hp = some h ∧ h.Name = g.Name) ∧
          o.Options.Outbounds =
            [gameOut, { Type_ := "block", Tag := "block" },
              { Type_ := "direct", Tag := "direct" },
              { Type_ := "dns", Tag := "dns_out" }]) ∨
       (∃ h httpOut k', hp = some h ∧ h.Name ≠ g.Name ∧
          getOUt uuidNew (some h) k = some (httpOut, k') ∧
          o.Options.Outbounds =
            [gameOut, { Type_ := "block", Tag := "block" },
              { Type_ := "direct", Tag := "direct" },
              { Type_ := "dns", Tag := "dns_out" }, httpOut])) := by
  obtain ⟨gameOut, hG, -⟩ := getOUt_some uuidNew g 0
  cases hp with
  | none =>
    exact ⟨_, gameOut, _, hG, by simp [Client.options, hG]; rfl, Or.inl ⟨Or.inl rfl, rfl⟩⟩
  | some h =>
    obtain ⟨httpOut, hH, -⟩ := getOUt_some uuidNew h 1
    by_cases hn : h.Name = g.Name
    · exact ⟨_, gameOut, _, hG, by simp [Client.options, hG, hn]; rfl,
        Or.inl ⟨Or.inr ⟨h, rfl, hn⟩, rfl⟩⟩
    · exact ⟨_, gameOut, _, hG, by simp [Client.options, hG, hH, hn]; rfl,
        Or.inr ⟨h, httpOut, _, rfl, hn, hH, rfl⟩⟩

/-- C4: there is one fixed list of 8 rules (2 to "dns_out", then the rule for
network "udp" and port 443 to "block", then 5 to "direct") such that for every
(non-nil) game peer and every http peer the route rules handed to the engine
are exactly this list when the http peer is nil or has the game peer's Name,
and otherwise this list followed by one last rule, which matches exactly the
protocols "http", "quic", "tls" and whose Outbound is the Tag of the outbound
built from the http peer, the last entry of Outbounds. -/
theorem Client_route_rules :
    ∃ static : List Rule,
      static.map (fun r => r.DefaultOptions.Outbound) =
        ["dns_out", "dns_out", "block", "direct", "direct", "direct", "direct", "direct"] ∧
      (∃ r, static[2]? = some r ∧ r.DefaultOptions.Network = ["udp"] ∧
        r.DefaultOptions.Port = [443]) ∧
      ∀ (uuidNew : Nat → String) (home : String) (sep : Char) (g : Peer)
        (hp : Option Peer),
        ∃ o route, Client.options uuidNew home sep (some g) hp = some o ∧
          o.Options.Route = some route ∧
          (((hp = none ∨ ∃ h, hp = some h ∧ h.Name = g.Name) ∧ route.Rules = static) ∨
           (∃ h httpOut k', hp = some h ∧ h.Name ≠ g.Name ∧
              getOUt uuidNew (some h) 1 = some (httpOut, k') ∧
              o.Options.Outbounds.getLast? = some httpOut ∧
              route.Rules = static ++
                [{ Type_ := "default"
                   DefaultOptions :=
                     { Protocol := ["http", "quic", "tls"], Outbound := httpOut.Tag } }])) := by
  refine ⟨((Client.options (fun _ => "") "" '/' (some {}) none).bind
      (fun o => o.Options.Route)).elim [] (fun r => r.Rules), by decide, by decide, ?_⟩
  intro uuidNew home sep g hp
  cases hp with
  | none => exact ⟨_, _, rfl, rfl, Or.inl ⟨Or.inl rfl, rfl⟩⟩
  | some h =>
    by_cases hn : h.Name = g.Name
    · rw [Client.options_same_name uuidNew home sep g h hn]
      exact ⟨_, _, rfl, rfl, Or.inl ⟨Or.inr ⟨h, rfl, hn⟩, rfl⟩⟩
    · obtain ⟨o₀, r₀, out, h₀, hr, hout, -, hh⟩ :=
        Client.options_other_name uuidNew home sep g h hn
      rw [hh]
      refine ⟨_, _, rfl, rfl, Or.inr ⟨h, out, _, rfl, hn, hout, by simp, ?_⟩⟩
      have : r₀.Rules = ((Client.options (fun _ => "") "" '/' (some {}) none).bind
          (fun o => o.Options.Route)).elim [] (fun r => r.Rules) := by
        injection h₀ with h₀
        subst h₀
        injection hr with hr
        subst hr
        rfl
      simp only [this]

/-- Log, DNS and inbound parts are those of `Client.baseOptions` for every
input. -/
theorem Client.options_static (uuidNew : Nat → String) (home : String) (sep : Char)
    (g : Peer) (hp : Option Peer) :
    ∃ o, Client.options uuidNew home sep (some g) hp = some o ∧
      o.Options.Log = Client.baseOptions.Log ∧
      o.Options.DNS = Client.baseOptions.DNS ∧
      o.Options.Inbounds = Client.baseOptions.Inbounds := by
  obtain ⟨o₀, r₀, -, -, -, h₀, hr, -, -, -, -, -, -, -, hl, hd, hi⟩ :=
    Client.options_no_http uuidNew home sep g
  cases hp with
  | none => exact ⟨o₀, h₀, hl, hd, hi⟩
  | some h =>
    by_cases hn : h.Name = g.Name
    · rw [Client.options_same_name uuidNew home sep g h hn]
      exact ⟨o₀, h₀, hl, hd, hi⟩
    · obtain ⟨o₁, r₁, out, h₁, -, -, -, hh⟩ :=
        Client.options_other_name uuidNew home sep g h hn
      rw [h₀] at h₁
      injection h₁ with h₁
      subst h₁
      exact ⟨_, hh, hl, hd, hi⟩

/-- C5: the log options, the DNS options (servers, rules, client options) and
the inbound listeners handed to the engine are the same for any two pairs of
(game peer, http peer) inputs with the same home directory (and for any
generated tags): both runs build options, and these three parts are present
and equal. -/
theorem Client_static_parts (uuidNew₁ uuidNew₂ : Nat → String) (home : String)
    (sep : Char) (g₁ g₂ : Peer) (hp₁ hp₂ : Option Peer) :
    ∃ o₁ o₂ log dns,
      Client.options uuidNew₁ home sep (some g₁) hp₁ = some o₁ ∧
      Client.options uuidNew₂ home sep (some g₂) hp₂ = some o₂ ∧
      o₁.Options.Log = some log ∧ o₂.Options.Log = some log ∧
      o₁.Options.DNS = some dns ∧ o₂.Options.DNS = some dns ∧
      dns.Servers.length = 3 ∧ dns.Rules.length = 3 ∧
      o₁.Options.Inbounds = o₂.Options.Inbounds ∧
      o₁.Options.Inbounds.map (fun i => i.Tag) = ["tun-in", "socks-in"] := by
  obtain ⟨o₁, h₁, l₁, d₁, i₁⟩ := Client.options_static uuidNew₁ home sep g₁ hp₁
  obtain ⟨o₂, h₂, l₂, d₂, i₂⟩ := Client.options_static uuidNew₂ home sep g₂ hp₂
  refine ⟨o₁, o₂, _, _, h₁, h₂, l₁.trans rfl, l₂.trans rfl, d₁.trans rfl, d₂.trans rfl,
    rfl, rfl, i₁.trans i₂.symm, ?_⟩
  rw [i₁]
  rfl

/-- C6: for every engine constructor `boxNew` and every (non-nil) game peer,
`Client` calls the constructor exactly once, with the assembled options, and
mirrors its outcome: if the constructor returns an error `e`, `Client` returns
a nil instance and `e`; otherwise it returns the constructed instance and a
nil error.  In no case are the returned instance and error both non-nil. -/
theorem Client_mirrors_constructor {B E : Type} (uuidNew : Nat → String)
    (home : String) (sep : Char) (boxNew : BoxOptions → Option B × Option E)
    (g : Peer) (hp : Option Peer) :
    ∃ o run,
      Client.options uuidNew home sep (some g) hp = some o ∧
      Client uuidNew home sep boxNew (some g) hp = some run ∧
      run.newCalls = [o] ∧
      ((∃ e, (boxNew o).2 = some e ∧ run.inst = none ∧ run.err = some e) ∨
       ((boxNew o).2 = none ∧ run.inst = (boxNew o).1 ∧ run.err = none)) ∧
      (run.inst = none ∨ run.err = none) := by
  obtain ⟨o, ho⟩ := Client.options_some uuidNew home sep g hp
  cases hb : (boxNew o).2 with
  | none =>
    refine ⟨o, ⟨[o], (boxNew o).1, none⟩, ho, ?_, rfl, Or.inr ⟨hb, rfl, rfl⟩, Or.inr rfl⟩
    simp [Client, ho, hb]
  | some e =>
    refine ⟨o, ⟨[o], none, some e⟩, ho, ?_, rfl, Or.inl ⟨e, hb, rfl, rfl⟩, Or.inl rfl⟩
    simp [Client, ho, hb]

/-- A string of 36 characters, the length of every `uuid.UUID.String()`, is
none of the static outbound tags. -/
theorem uuid_ne_static_tag (t : String) (ht : t.length = 36) :
    t ≠ "block" ∧ t ≠ "direct" ∧ t ≠ "dns_out" := by
  refine ⟨?_, ?_, ?_⟩ <;>
  · intro h
    rw [h] at ht
    revert ht
    decide

/-- C7: assume the generated tags have the 36 characters of a UUID string.
Then for every (non-nil) game peer and every http peer, in the route rules
handed to the engine: every rule that matches on Geosite, GeoIP, DomainSuffix,
Domain or SourceIPCIDR has Outbound "direct"; the third rule matches network
"udp" on port 443 and has Outbound "block"; neither of the two rules before it
has Outbound "block" or "direct" or is the http-peer rule (so the block rule
precedes every "direct" rule and the http-peer rule); and no rule after it has
Outbound "block" (so it is the only one). -/
theorem Client_rule_targets (uuidNew : Nat → String)
    (hUuid : ∀ k, (uuidNew k).length = 36) (home : String) (sep : Char)
    (g : Peer) (hp : Option Peer) :
    ∃ o route blockRule,
      Client.options uuidNew home sep (some g) hp = some o ∧
      o.Options.Route = some route ∧
      (∀ r ∈ route.Rules,
        (r.DefaultOptions.Geosite ≠ [] ∨ r.DefaultOptions.GeoIP ≠ [] ∨
         r.DefaultOptions.DomainSuffix ≠ [] ∨ r.DefaultOptions.Domain ≠ [] ∨
         r.DefaultOptions.SourceIPCIDR ≠ []) →
        r.DefaultOptions.Outbound = "direct") ∧
      route.Rules = route.Rules.take 2 ++ blockRule :: route.Rules.drop 3 ∧
      blockRule.DefaultOptions.Network = ["udp"] ∧
      blockRule.DefaultOptions.Port = [443] ∧
      blockRule.DefaultOptions.Outbound = "block" ∧
      (∀ r ∈ route.Rules.take 2,
        r.DefaultOptions.Outbound ≠ "block" ∧ r.DefaultOptions.Outbound ≠ "direct" ∧
        r.DefaultOptions.Protocol ≠ ["http", "quic", "tls"]) ∧
      (∀ r ∈ route.Rules.drop 3, r.DefaultOptions.Outbound ≠ "block") := by
  have base :
      ∃ blockRule,
        (∀ r ∈ Client.baseRules,
          (r.DefaultOptions.Geosite ≠ [] ∨ r.DefaultOptions.GeoIP ≠ [] ∨
           r.DefaultOptions.DomainSuffix ≠ [] ∨ r.DefaultOptions.Domain ≠ [] ∨
           r.DefaultOptions.SourceIPCIDR ≠ []) →
          r.DefaultOptions.Outbound = "direct") ∧
        Client.baseRules =
          Client.baseRules.take 2 ++ blockRule :: Client.baseRules.drop 3 ∧
        blockRule.DefaultOptions.Network = ["udp"] ∧
        blockRule.DefaultOptions.Port = [443] ∧
        blockRule.DefaultOptions.Outbound = "block" ∧
        (∀ r ∈ Client.baseRules.take 2,
          r.DefaultOptions.Outbound ≠ "block" ∧ r.DefaultOptions.Outbound ≠ "direct" ∧
          r.DefaultOptions.Protocol ≠ ["http", "quic", "tls"]) ∧
        (∀ r ∈ Client.baseRules.drop 3, r.DefaultOptions.Outbound ≠ "block") :=
    ⟨_, by decide, rfl, rfl, rfl, rfl, by decide, by decide⟩
  obtain ⟨blockRule, b1, b2, b3, b4, b5, b6, b7⟩ := base
  obtain ⟨o₀, r₀, -, -, -, h₀, hr, -, -, hR, -⟩ := Client.options_no_http uuidNew home sep g
  have noHttp : ∃ o route blockRule,
      Client.options uuidNew home sep (some g) none = some o ∧
      o.Options.Route = some route ∧
      (∀ r ∈ route.Rules,
        (r.DefaultOptions.Geosite ≠ [] ∨ r.DefaultOptions.GeoIP ≠ [] ∨
         r.DefaultOptions.DomainSuffix ≠ [] ∨ r.DefaultOptions.Domain ≠ [] ∨
         r.DefaultOptions.SourceIPCIDR ≠ []) →
        r.DefaultOptions.Outbound = "direct") ∧
      route.Rules = route.Rules.take 2 ++ blockRule :: route.Rules.drop 3 ∧
      blockRule.DefaultOptions.Network = ["udp"] ∧
      blockRule.DefaultOptions.Port = [443] ∧
      blockRule.DefaultOptions.Outbound = "block" ∧
      (∀ r ∈ route.Rules.take 2,
        r.DefaultOptions.Outbound ≠ "block" ∧ r.DefaultOptions.Outbound ≠ "direct" ∧
        r.DefaultOptions.Protocol ≠ ["http", "quic", "tls"]) ∧
      (∀ r ∈ route.Rules.drop 3, r.DefaultOptions.Outbound ≠ "block") := by
    refine ⟨o₀, r₀, blockRule, h₀, hr, ?_⟩
    rw [hR]
    exact ⟨b1, b2, b3, b4, b5, b6, b7⟩
  cases hp with
  | none => exact noHttp
  | some h =>
    by_cases hn : h.Name = g.Name
    · rw [Client.options_same_name uuidNew home sep g h hn]
      exact noHttp
    · obtain ⟨o₁, r₁, out, h₁, hr₁, -, hTag, hh⟩ :=
        Client.options_other_name uuidNew home sep g h hn
      rw [h₀] at h₁
      injection h₁ with h₁
      subst h₁
      rw [hr] at hr₁
      injection hr₁ with hr₁
      subst hr₁
      have hlen : Client.baseRules.length = 8 := rfl
      have hne := (uuid_ne_static_tag out.Tag (hTag ▸ hUuid 1)).1
      refine ⟨_, _, blockRule, hh, rfl, ?_⟩
      simp only [hR]
      rw [List.take_append_of_le_length (by rw [hlen]; decide),
        List.drop_append_of_le_length (by rw [hlen]; decide)]
      refine ⟨?_, ?_, b3, b4, b5, b6, ?_⟩
      · intro r hr'
        rcases List.mem_append.1 hr' with hr' | hr'
        · exact b1 r hr'
        · rw [List.mem_singleton.1 hr']
          simp
      · conv_lhs => rw [b2]
        simp
      · intro r hr'
        rcases List.mem_append.1 hr' with hr' | hr'
        · exact b7 r hr'
        · rw [List.mem_singleton.1 hr']
          exact hne

/-- Witness for C7: the example tags have 36 characters, and with the example
peers no rule after the third one targets "block". -/
theorem Client_rule_targets_witness :
    (∀ k, (exampleUuid k).length = 36) ∧
    ∃ o route,
      Client.options exampleUuid "/home/u" '/' (some exampleGame) (some exampleHttp) = some o ∧
      o.Options.Route = some route ∧
      (∀ r ∈ route.Rules.drop 3, r.DefaultOptions.Outbound ≠ "block") := by
  have hU : ∀ k, (exampleUuid k).length = 36 := by
    intro k
    unfold exampleUuid
    split <;> decide
  obtain ⟨o, route, -, h₁, h₂, -, -, -, -, -, -, h₃⟩ :=
    Client_rule_targets exampleUuid hU "/home/u" '/' exampleGame (some exampleHttp)
  exact ⟨hU, o, route, h₁, h₂, h₃⟩

/-- C8 as stated fails: with the example game peer and no http peer, not every
DNS server's Detour is the Tag of an outbound (the servers "proxyDns" and
"block" have the empty Detour, and no outbound has the empty Tag). -/
theorem Client_dns_detour_not_closed :
    ∃ o dns,
      Client.options exampleUuid "/home/u" '/' (some exampleGame) none = some o ∧
      o.Options.DNS = some dns ∧
      ¬ ∀ s ∈ dns.Servers, s.Detour ∈ o.Options.Outbounds.map (fun x => x.Tag) :=
  ⟨_, _, rfl, rfl, by decide⟩

/-- C8, amended: for every (non-nil) game peer and every http peer, in the
options handed to the engine the Outbound of every route rule and the
DownloadDetour of the GeoIP and of the Geosite options are Tags of entries of
Outbounds; the Detour of every DNS server is either empty (no detour set) or
the Tag of an entry of Outbounds; and the Server of every DNS rule is the Tag
of an entry of the DNS Servers list. -/
theorem Client_refs_closed (uuidNew : Nat → String) (home : String) (sep : Char)
    (g : Peer) (hp : Option Peer) :
    ∃ o route dns geoip geosite,
      Client.options uuidNew home sep (some g) hp = some o ∧
      o.Options.Route = some route ∧ o.Options.DNS = some dns ∧
      route.GeoIP = some geoip ∧ route.Geosite = some geosite ∧
      (∀ r ∈ route.Rules,
        r.DefaultOptions.Outbound ∈ o.Options.Outbounds.map (fun x => x.Tag)) ∧
      geoip.DownloadDetour ∈ o.Options.Outbounds.map (fun x => x.Tag) ∧
      geosite.DownloadDetour ∈ o.Options.Outbounds.map (fun x => x.Tag) ∧
      (∀ s ∈ dns.Servers,
        s.Detour = "" ∨ s.Detour ∈ o.Options.Outbounds.map (fun x => x.Tag)) ∧
      (∀ r ∈ dns.Rules,
        r.DefaultOptions.Server ∈ dns.Servers.map (fun x => x.Tag)) := by
  have bR : ∀ r ∈ Client.baseRules,
      r.DefaultOptions.Outbound ∈ ["block", "direct", "dns_out"] := by decide
  have bD : ∃ dns, Client.baseOptions.DNS = some dns ∧
      (∀ s ∈ dns.Servers, s.Detour = "" ∨ s.Detour = "direct") ∧
      (∀ r ∈ dns.Rules, r.DefaultOptions.Server ∈ dns.Servers.map (fun x => x.Tag)) :=
    ⟨_, rfl, by decide, by decide⟩
  obtain ⟨dns, hdns, bS, bDR⟩ := bD
  obtain ⟨o₀, r₀, gameOut, geoip, geosite, h₀, hr, -, hO, hR, hgi, dgi, hgs, dgs, -, hd, -⟩ :=
    Client.options_no_http uuidNew home sep g
  have noHttp : ∃ o route dns geoip geosite,
      Client.options uuidNew home sep (some g) none = some o ∧
      o.Options.Route = some route ∧ o.Options.DNS = some dns ∧
      route.GeoIP = some geoip ∧ route.Geosite = some geosite ∧
      (∀ r ∈ route.Rules,
        r.DefaultOptions.Outbound ∈ o.Options.Outbounds.map (fun x => x.Tag)) ∧
      geoip.DownloadDetour ∈ o.Options.Outbounds.map (fun x => x.Tag) ∧
      geosite.DownloadDetour ∈ o.Options.Outbounds.map (fun x => x.Tag) ∧
      (∀ s ∈ dns.Servers,
        s.Detour = "" ∨ s.Detour ∈ o.Options.Outbounds.map (fun x => x.Tag)) ∧
      (∀ r ∈ dns.Rules,
        r.DefaultOptions.Server ∈ dns.Servers.map (fun x => x.Tag)) := by
    refine ⟨o₀, r₀, dns, geoip, geosite, h₀, hr, hd.trans hdns, hgi, hgs, ?_, ?_, ?_, ?_, bDR⟩
    · intro r hr'
      have := bR r (hR ▸ hr')
      rw [hO]
      simp only [List.map, List.mem_cons] at this ⊢
      tauto
    · rw [hO, dgi]; simp
    · rw [hO, dgs]; simp
    · intro s hs
      rcases bS s hs with h | h
      · exact Or.inl h
      · right; rw [hO, h]; simp
  cases hp with
  | none => exact noHttp
  | some h =>
    by_cases hn : h.Name = g.Name
    · rw [Client.options_same_name uuidNew home sep g h hn]
      exact noHttp
    · obtain ⟨o₁, r₁, out, h₁, hr₁, -, -, hh⟩ :=
        Client.options_other_name uuidNew home sep g h hn
      rw [h₀] at h₁
      injection h₁ with h₁
      subst h₁
      rw [hr] at hr₁
      injection hr₁ with hr₁
      subst hr₁
      refine ⟨_, _, dns, geoip, geosite, hh, rfl, hd.trans hdns, hgi, hgs, ?_, ?_, ?_, ?_, bDR⟩
      · intro r hr'
        simp only [hO, hR] at hr' ⊢
        rcases List.mem_append.1 hr' with hr' | hr'
        · have := bR r hr'
          simp only [List.map, List.mem_cons, List.mem_append, List.cons_append,
            List.nil_append] at this ⊢
          tauto
        · rw [List.mem_singleton.1 hr']
          simp
      · simp only [hO, dgi]; simp
      · simp only [hO, dgs]; simp
      · intro s hs
        rcases bS s hs with h | h
        · exact Or.inl h
        · right; simp only [hO, h]; simp

/-- Every input: the second route rule matches on the inbound tag "dns_in",
and no entry of Inbounds has that tag. -/
theorem Client.dns_in_dangling (uuidNew : Nat → String) (home : String) (sep : Char)
    (g : Peer) (hp : Option Peer) :
    ∃ o route r,
      Client.options uuidNew home sep (some g) hp = some o ∧
      o.Options.Route = some route ∧
      route.Rules[1]? = some r ∧ r.DefaultOptions.Inbound = ["dns_in"] ∧
      o.Options.Inbounds.map (fun i => i.Tag) = ["tun-in", "socks-in"] := by
  cases hp with
  | none => exact ⟨_, _, _, rfl, rfl, rfl, rfl, rfl⟩
  | some h =>
    by_cases hn : h.Name = g.Name
    · rw [Client.options_same_name uuidNew home sep g h hn]
      exact ⟨_, _, _, rfl, rfl, rfl, rfl, rfl⟩
    · obtain ⟨o₁, r₁, out, h₁, hr₁, -, -, hh⟩ :=
        Client.options_other_name uuidNew home sep g h hn
      injection h₁ with h₁
      subst h₁
      injection hr₁ with hr₁
      subst hr₁
      exact ⟨_, _, _, hh, rfl, rfl, rfl, rfl⟩

/-- C9 fails on the code: with the example game peer and no http peer the
Inbounds have the tags "tun-in" and "socks-in", and not every inbound tag that
a route rule matches on is among them (the second rule matches on "dns_in"). -/
theorem Client_rule_inbound_dangling :
    ∃ o route,
      Client.options exampleUuid "/home/u" '/' (some exampleGame) none = some o ∧
      o.Options.Route = some route ∧
      o.Options.Inbounds.map (fun i => i.Tag) = ["tun-in", "socks-in"] ∧
      ¬ ∀ r ∈ route.Rules, ∀ t ∈ r.DefaultOptions.Inbound,
          t ∈ o.Options.Inbounds.map (fun i => i.Tag) :=
  ⟨_, _, rfl, rfl, rfl, by decide⟩

end Gpp
